import Mathlib

/-!
Verification development for the `wildcards` crate (`src/lib.rs`).

The crate applies a file-level operation (copy, move, delete) across a source
specification that may be a single file, a directory, or a wildcard mask.  The
code is embedded shallowly:

* a filesystem path is a list of segments (`Path := List OsStr`), where an
  `OsStr` either decodes to text (`OsStr.valid`) or does not (`OsStr.invalid`),
  mirroring `std::ffi::OsStr` and its fallible `to_str`;
* the filesystem and the other external collaborators (the existence
  predicates, `tokio::fs::read_dir`, the raw copy/rename/remove primitives,
  `std::env::temp_dir`, and `regex::Regex::new`) are packaged into an `Env`
  record of pure functions;
* the directory-listing stream handed to the `while let Ok(Some(entry))` loop
  is a `List EntryRes`: end of the list models `Ok(None)`, `EntryRes.fail`
  models an `Err` from `next_entry`, and `EntryRes.name n` models
  `Ok(Some(entry))` with file name `n`;
* each routine returns, next to its `Result`, the list of invocations of the
  operation capability (`Log`), making "the capability was invoked on exactly
  these pairs" provable; the `.unwrap()` panic on `Regex::new` failure is
  modelled by an outer `Option`, `none` meaning the call panics.
-/

namespace Wildcards

/-- An OS string: either valid UTF-8 text or an undecodable name
(distinguished by an arbitrary identifier). -/
inductive OsStr where
  | valid (s : String)
  | invalid (id : Nat)
  deriving DecidableEq, Repr

/-- `OsStr::to_str`: `some` exactly for valid text. -/
def OsStr.decode : OsStr → Option String
  | .valid s => some s
  | .invalid _ => none

/-- A filesystem path, as its list of segments. -/
abbrev Path := List OsStr

/-- `Path::file_name`: the last segment, if any. -/
def fileNameOf (p : Path) : Option OsStr :=
  p.getLast?

/-- `Path::parent`: drop the last segment; `none` for the empty path
(modelling the paths on which Rust's `parent` returns `None`). -/
def pathParent (p : Path) : Option Path :=
  if p.isEmpty then none else some p.dropLast

/-- `WildcardingError` from `src/lib.rs`, verbatim. -/
inductive WildcardingError where
  | UnknownFormat (p : Path)
  | OperationFailed (source target : Path)
  | InvalidSource (p : Path)
  | InvalidTarget (p : Path)
  | FilenameFail (p : Path)
  | InvalidPath (p : Path)
  | NoParent (p : Path)
  | ReadError (p : Path)
  deriving DecidableEq, Repr

/-- The operation capability: the closure handed to the strategies. -/
abbrev Op := Path → Path → Except WildcardingError Unit

/-- The record of capability invocations (source, target) made by a call. -/
abbrev Log := List (Path × Path)

/-- One result of `reader.next_entry()` inside the listing loop:
`fail` is `Err(_)`, `name n` is `Ok(Some(entry))`; the end of the
enclosing list is `Ok(None)`. -/
inductive EntryRes where
  | fail
  | name (n : OsStr)
  deriving DecidableEq, Repr

/-- The external collaborators: filesystem predicates, the directory
listing, the raw OS primitives wrapped by the three closures, the scratch
directory, and `Regex::new` (returning the compiled matcher as an
`is_match` predicate, or `none` when compilation fails). -/
structure Env where
  is_file : Path → Bool
  is_dir : Path → Bool
  read_dir : Path → Option (List EntryRes)
  regex_new : String → Option (String → Bool)
  copy_raw : Path → Path → Bool
  rename_raw : Path → Path → Bool
  remove_raw : Path → Bool
  temp_dir : Path

/-- `as_str.contains("*")` on the decoded segment. -/
def containsStar (s : String) : Bool :=
  s.toList.contains '*'

/-- `as_str.replace("*", ".*")`: `str::replace` specialised to the
single-character pattern `*`. -/
def replaceStar (s : String) : String :=
  String.mk (s.toList.foldr (fun c acc => if c = '*' then '.' :: '*' :: acc else c :: acc) [])

/-- `do_on_file` (src/lib.rs:97-114): if the target is a directory the
effective target is `target/<file_name of source>` (failing with
`FilenameFail` when the source has no file name), otherwise the target is
used verbatim; the capability is applied once and its invocation logged. -/
def do_on_file (env : Env) (source target : Path) (op : Op) :
    Except WildcardingError Unit × Log :=
  if env.is_dir target then
    match fileNameOf source with
    | none => (.error (.FilenameFail source), [])
    | some filename =>
      let new_target := target ++ [filename]
      (op source new_target, [(source, new_target)])
  else
    (op source target, [(source, target)])

/-- The `while let Ok(Some(entry)) = reader.next_entry().await` loop of
`do_on_mask` (src/lib.rs:152-164): `src` is the (shadowed) parent
directory, `re` the compiled matcher.  An `Err` from `next_entry` makes
the `while let` pattern fail, ending the loop; a matching file entry is
handed to `do_on_file` with the original target, and its error (the `?`)
aborts the loop. -/
def maskLoop (env : Env) (re : String → Bool) (src target : Path) (op : Op) :
    List EntryRes → Except WildcardingError Unit × Log
  | [] => (.ok (), [])
  | .fail :: _ => (.ok (), [])
  | .name entryName :: rest =>
    let entry := src ++ [entryName]
    if env.is_file entry then
      match fileNameOf entry with
      | none => maskLoop env re src target op rest
      | some name =>
        match name.decode with
        | none => (.error (.InvalidPath entry), [])
        | some as_str =>
          if re as_str then
            match do_on_file env (src ++ [name]) target op with
            | (.ok _, calls) =>
              let r := maskLoop env re src target op rest
              (r.1, calls ++ r.2)
            | (.error e, calls) => (.error e, calls)
          else maskLoop env re src target op rest
    else maskLoop env re src target op rest

/-- `do_on_mask` (src/lib.rs:132-172): extract and decode the last
segment, require a `*`, take the parent, compile
`Regex::new(&as_str.replace("*", ".*"))` — whose `.unwrap()` panic is the
outer `none` — list the parent and run the entry loop. -/
def do_on_mask (env : Env) (source target : Path) (op : Op) :
    Option (Except WildcardingError Unit × Log) :=
  match fileNameOf source with
  | none => some (.error (.InvalidSource source), [])
  | some name =>
    match name.decode with
    | none => some (.error (.InvalidPath source), [])
    | some as_str =>
      if containsStar as_str then
        match pathParent source with
        | none => some (.error (.NoParent source), [])
        | some src =>
          match env.regex_new (replaceStar as_str) with
          | none => none
          | some re =>
            match env.read_dir src with
            | none => some (.error (.ReadError src), [])
            | some entries => some (maskLoop env re src target op entries)
      else some (.error (.InvalidSource source), [])

/-- `do_on_dir` (src/lib.rs:117-129): the target must already be a
directory, otherwise `InvalidTarget`; then delegate to `do_on_mask` on
`source.join("*")`. -/
def do_on_dir (env : Env) (source target : Path) (op : Op) :
    Option (Except WildcardingError Unit × Log) :=
  if !env.is_dir target then
    some (.error (.InvalidTarget target), [])
  else
    do_on_mask env (source ++ [OsStr.valid "*"]) target op

/-- The closure of `cp` (src/lib.rs:40-45): `std::fs::copy`, its failure
mapped to `OperationFailed(source, target)`. -/
def cpClosure (env : Env) : Op := fun source target =>
  if env.copy_raw source target then .ok ()
  else .error (.OperationFailed source target)

/-- The closure of `mv` (src/lib.rs:58-65): `std::fs::rename`, its
failure mapped to `OperationFailed(source, target)`. -/
def mvClosure (env : Env) : Op := fun source target =>
  if env.rename_raw source target then .ok ()
  else .error (.OperationFailed source target)

/-- The closure of `rm` (src/lib.rs:80-85): `std::fs::remove_file` on the
source, the target ignored, failure mapped to `InvalidSource(source)`. -/
def rmClosure (env : Env) : Op := fun source _target =>
  if env.remove_raw source then .ok ()
  else .error (.InvalidSource source)

/-- `cp` (src/lib.rs:37-53). -/
def cp (env : Env) (source target : Path) :
    Option (Except WildcardingError Unit × Log) :=
  match env.is_file source, env.is_dir source with
  | true, true => some (.error (.UnknownFormat source), [])
  | true, false => some (do_on_file env source target (cpClosure env))
  | false, true => do_on_dir env source target (cpClosure env)
  | false, false => do_on_mask env source target (cpClosure env)

/-- `mv` (src/lib.rs:56-73). -/
def mv (env : Env) (source target : Path) :
    Option (Except WildcardingError Unit × Log) :=
  match env.is_file source, env.is_dir source with
  | true, true => some (.error (.UnknownFormat source), [])
  | true, false => some (do_on_file env source target (mvClosure env))
  | false, true => do_on_dir env source target (mvClosure env)
  | false, false => do_on_mask env source target (mvClosure env)

/-- `rm` (src/lib.rs:76-94): same dispatch, with `std::env::temp_dir()`
as the never-used target. -/
def rm (env : Env) (source : Path) :
    Option (Except WildcardingError Unit × Log) :=
  let target := env.temp_dir
  match env.is_file source, env.is_dir source with
  | true, true => some (.error (.UnknownFormat source), [])
  | true, false => some (do_on_file env source target (rmClosure env))
  | false, true => do_on_dir env source target (rmClosure env)
  | false, false => do_on_mask env source target (rmClosure env)

/-- Follows the spec's words (§4.1): the single three-way dispatch that
the spec says is shared by the three public operations, abstracted over
the injected capability. -/
def dispatchSpec (env : Env) (source target : Path) (op : Op) :
    Option (Except WildcardingError Unit × Log) :=
  match env.is_file source, env.is_dir source with
  | true, true => some (.error (.UnknownFormat source), [])
  | true, false => some (do_on_file env source target op)
  | false, true => do_on_dir env source target op
  | false, false => do_on_mask env source target op

/-! ## Model of the `regex` collaborator

`do_on_mask` hands `Regex::new` the segment with every `*` replaced by
`.*`, so the generated patterns are concatenations of `.*`, `.` and the
segment's remaining characters.  The model below interprets exactly that
fragment: `.` matches any character other than `'\n'`, `.*` matches zero
or more such characters, every non-metacharacter is a literal, and a
match is an unanchored search (`Regex::is_match` finds the pattern in any
substring).  A pattern containing any other unescaped metacharacter is
reported as a compilation failure; `Regex::new` does fail on the ones
exercised below (an unclosed `[` or `(`, a dangling quantifier), though a
few metacharacters it would accept (such as `|`) are conservatively
outside the modelled fragment. -/

/-- A token of a compiled pattern: `.`, `.*`, or a literal character. -/
inductive RTok where
  | dot
  | dotStar
  | lit (c : Char)
  deriving DecidableEq, Repr

/-- The regex metacharacters (unescaped occurrences outside `.` and the
generated `.*` pairs leave the modelled fragment). -/
def regexMeta (c : Char) : Bool :=
  c ∈ ['.', '*', '+', '?', '(', ')', '[', ']', '{', '}', '|', '^', '$', '\\']

/-- Parse a generated pattern into tokens; `none` models a `Regex::new`
failure. Generated patterns only contain `*` directly after the `.` that
`replace` produced, so `.` followed by `*` is always the `.*` wildcard. -/
def patternToks : List Char → Option (List RTok)
  | [] => some []
  | '.' :: '*' :: rest => (patternToks rest).map (RTok.dotStar :: ·)
  | '.' :: rest => (patternToks rest).map (RTok.dot :: ·)
  | c :: rest =>
    if regexMeta c then none
    else (patternToks rest).map (RTok.lit c :: ·)

/-- The suffixes of `cs` reachable by letting `.*` consume characters:
every suffix up to (and not past) the first `'\n'`. -/
def starSplits : List Char → List (List Char)
  | [] => [[]]
  | c :: cs => (c :: cs) :: (if c = '\n' then [] else starSplits cs)

/-- Does the token list match some prefix of `cs`? -/
def matchesPref : List RTok → List Char → Bool
  | [], _ => true
  | RTok.dot :: ts, cs =>
    match cs with
    | [] => false
    | c :: cs2 => decide (c ≠ '\n') && matchesPref ts cs2
  | RTok.lit a :: ts, cs =>
    match cs with
    | [] => false
    | c :: cs2 => decide (a = c) && matchesPref ts cs2
  | RTok.dotStar :: ts, cs => (starSplits cs).any fun cs2 => matchesPref ts cs2

/-- `Regex::is_match`: the pattern matches starting at some position. -/
def searchMatch (ts : List RTok) : List Char → Bool
  | [] => matchesPref ts []
  | c :: cs2 => matchesPref ts (c :: cs2) || searchMatch ts cs2

/-- Model of `regex::Regex::new` on the generated fragment, yielding the
`is_match` predicate. -/
def regexModelNew (pat : String) : Option (String → Bool) :=
  (patternToks pat.toList).map fun ts => fun s => searchMatch ts s.toList

/-- Modelled from the spec (§3, §4.4 step 3): the matcher obtained "by
treating `*` as a wildcard equivalent to zero or more of any character
and anchoring the match to the entire filename", every other character of
the segment taken literally. -/
def globSpec : List Char → List Char → Bool
  | [], cs => cs.isEmpty
  | p :: ps, cs =>
    if p = '*' then
      (charSuffixes cs).any fun cs2 => globSpec ps cs2
    else
      match cs with
      | [] => false
      | c :: cs2 => decide (p = c) && globSpec ps cs2
where
  /-- All suffixes of a character list (`*` may consume any prefix). -/
  charSuffixes : List Char → List (List Char)
    | [] => [[]]
    | c :: cs => (c :: cs) :: charSuffixes cs

/-- The spec's whole-name wildcard match of a segment against a filename. -/
def wholeNameGlobMatch (seg name : String) : Bool :=
  globSpec seg.toList name.toList

/-! ## Observables of the listing loop -/

/-- The path of a listing entry (`entry.path()`); dummy for a failed read. -/
def entryPathOf (src : Path) : EntryRes → Path
  | .fail => src
  | .name n => src ++ [n]

/-- Whether a listing entry is matched by the mask expansion: it was
enumerated, is a file, and its decoded name satisfies the matcher. -/
def entryMatched (env : Env) (re : String → Bool) (src : Path) : EntryRes → Bool
  | .fail => false
  | .name n =>
    env.is_file (src ++ [n]) &&
      match n.decode with
      | some s => re s
      | none => false

/-- Whether a listing entry is harmless to the walk's decoding step: it
either is not a file or its name decodes as text. -/
def entryDecodeOk (env : Env) (src : Path) : EntryRes → Bool
  | .fail => true
  | .name n => !env.is_file (src ++ [n]) || (n.decode).isSome

/-! ## Concrete inputs for counterexamples and witnesses -/

/-- A capability that always succeeds. -/
def opOk : Op := fun _ _ => .ok ()

/-- Environment: directory `d` containing the single file `atxt`;
no path is a directory for the target checks; every primitive succeeds. -/
def env1 : Env where
  is_file := fun p => decide (p = [OsStr.valid "d", OsStr.valid "atxt"])
  is_dir := fun _ => false
  read_dir := fun p =>
    if p = [OsStr.valid "d"] then some [EntryRes.name (OsStr.valid "atxt")] else none
  regex_new := regexModelNew
  copy_raw := fun _ _ => true
  rename_raw := fun _ _ => true
  remove_raw := fun _ => true
  temp_dir := []

/-- The compiled form of the mask segment `*` under the regex model. -/
def m6 : String → Bool := fun s => searchMatch [RTok.dotStar] s.toList

/-- Environment: directory `d` containing one file whose name does not
decode as text. -/
def env6 : Env where
  is_file := fun p => decide (p = [OsStr.valid "d", OsStr.invalid 0])
  is_dir := fun _ => false
  read_dir := fun p =>
    if p = [OsStr.valid "d"] then some [EntryRes.name (OsStr.invalid 0)] else none
  regex_new := regexModelNew
  copy_raw := fun _ _ => true
  rename_raw := fun _ _ => true
  remove_raw := fun _ => true
  temp_dir := []

/-- Environment: `f` is a file, `td` is a directory, and every raw
primitive fails. -/
def envF : Env where
  is_file := fun p => decide (p = [OsStr.valid "f"])
  is_dir := fun p => decide (p = [OsStr.valid "td"])
  read_dir := fun _ => none
  regex_new := regexModelNew
  copy_raw := fun _ _ => false
  rename_raw := fun _ _ => false
  remove_raw := fun _ => false
  temp_dir := [OsStr.valid "tmp"]

/-! ## Theorems -/

/-- Claim C1: the spec says the compiled matcher accepts a filename iff
the entire filename matches the segment with `*` standing for zero or
more arbitrary characters and every other character literal.  The code
compiles `Regex::new(&as_str.replace("*", ".*"))` and uses `is_match`:
the match is unanchored and no other character is escaped, so the mask
`*.txt` in directory `d` matches — and the expansion acts on — the file
`atxt`, which the spec's whole-name wildcard match rejects.  The code is
the slip here: the capability is invoked on `d/atxt` with the original
target even though `atxt` does not match the wildcard `*.txt`. -/
theorem claimC1_matcher_code_bug :
    do_on_mask env1 [OsStr.valid "d", OsStr.valid "*.txt"] [OsStr.valid "out"] opOk
      = some (.ok (), [([OsStr.valid "d", OsStr.valid "atxt"], [OsStr.valid "out"])])
    ∧ wholeNameGlobMatch "*.txt" "atxt" = false :=
  ⟨rfl, rfl⟩

/-- Claim C8: the claim says compiling a mask segment never panics, even
for segments with regex metacharacters.  The code's `.unwrap()` on
`Regex::new` panics for the segment `*[` (the generated pattern `.*[`
has an unclosed character class), modelled here as the `none` outcome of
`do_on_mask`. -/
theorem claimC8_compile_code_bug :
    do_on_mask env1 [OsStr.valid "d", OsStr.valid "*["] [OsStr.valid "out"] opOk = none :=
  rfl

/-- Claim C2: `cp`, `mv` and `rm` all perform the identical three-way
dispatch on the two independent checks `is_file`/`is_dir` — both true
yields `UnknownFormat(source)` with no capability invocation, file-only
goes to the file strategy, directory-only to the directory strategy,
neither to the mask strategy — and only the injected capability (and, for
`rm`, the throwaway `temp_dir` target) differs. -/
theorem claimC2_dispatch (env : Env) (s t : Path) (op : Op) :
    cp env s t = dispatchSpec env s t (cpClosure env)
    ∧ mv env s t = dispatchSpec env s t (mvClosure env)
    ∧ rm env s = dispatchSpec env s env.temp_dir (rmClosure env)
    ∧ (env.is_file s = true → env.is_dir s = true →
        dispatchSpec env s t op = some (.error (.UnknownFormat s), []))
    ∧ (env.is_file s = true → env.is_dir s = false →
        dispatchSpec env s t op = some (do_on_file env s t op))
    ∧ (env.is_file s = false → env.is_dir s = true →
        dispatchSpec env s t op = do_on_dir env s t op)
    ∧ (env.is_file s = false → env.is_dir s = false →
        dispatchSpec env s t op = do_on_mask env s t op) :=
  ⟨rfl, rfl, rfl,
    fun hf hd => by simp [dispatchSpec, hf, hd],
    fun hf hd => by simp [dispatchSpec, hf, hd],
    fun hf hd => by simp [dispatchSpec, hf, hd],
    fun hf hd => by simp [dispatchSpec, hf, hd]⟩

/-- Witness for C2 at a concrete input: a source that is neither file nor
directory goes to the mask strategy. -/
theorem claimC2_dispatch_witness :
    dispatchSpec env1 [OsStr.valid "x"] [] opOk = do_on_mask env1 [OsStr.valid "x"] [] opOk :=
  (claimC2_dispatch env1 [OsStr.valid "x"] [] opOk).2.2.2.2.2.2 rfl rfl

/-- Claim C3: the file strategy with source `s` and target `t` invokes
the capability exactly once on `(s, t/<file name of s>)` when `t` is a
directory — failing with `FilenameFail s` before any invocation when `s`
has no file name — and exactly once on `(s, t)` verbatim otherwise.  The
returned log is the exact list of capability invocations. -/
theorem claimC3_file_strategy (env : Env) (s t : Path) (op : Op) :
    (env.is_dir t = true → fileNameOf s = none →
      do_on_file env s t op = (.error (.FilenameFail s), []))
    ∧ (∀ n, env.is_dir t = true → fileNameOf s = some n →
      do_on_file env s t op = (op s (t ++ [n]), [(s, t ++ [n])]))
    ∧ (env.is_dir t = false →
      do_on_file env s t op = (op s t, [(s, t)])) :=
  ⟨fun hd hn => by simp [do_on_file, hd, hn],
    fun n hd hn => by simp [do_on_file, hd, hn],
    fun hd => by simp [do_on_file, hd]⟩

/-- Witness for C3 at a concrete input: copying file `f` into the
existing directory `td` invokes the capability once on `(f, td/f)`. -/
theorem claimC3_file_strategy_witness :
    do_on_file envF [OsStr.valid "f"] [OsStr.valid "td"] opOk
      = (.ok (), [([OsStr.valid "f"], [OsStr.valid "td", OsStr.valid "f"])]) :=
  (claimC3_file_strategy envF [OsStr.valid "f"] [OsStr.valid "td"] opOk).2.1
    (OsStr.valid "f") rfl rfl

/-- Claim C4: the directory strategy returns `InvalidTarget t` with no
capability invocation when `t` is not an existing directory, and
otherwise is exactly the mask strategy on `d/*` with the same target and
capability. -/
theorem claimC4_dir_strategy (env : Env) (d t : Path) (op : Op) :
    (env.is_dir t = false → do_on_dir env d t op = some (.error (.InvalidTarget t), []))
    ∧ (env.is_dir t = true →
      do_on_dir env d t op = do_on_mask env (d ++ [OsStr.valid "*"]) t op) :=
  ⟨fun hd => by simp [do_on_dir, hd],
    fun hd => by simp [do_on_dir, hd]⟩

/-- Witness for C4 at a concrete input: with the directory target `td`
the call is the mask strategy on `d/*`. -/
theorem claimC4_dir_strategy_witness :
    do_on_dir envF [OsStr.valid "d"] [OsStr.valid "td"] opOk
      = do_on_mask envF [OsStr.valid "d", OsStr.valid "*"] [OsStr.valid "td"] opOk :=
  (claimC4_dir_strategy envF [OsStr.valid "d"] [OsStr.valid "td"] opOk).2 rfl

/-- Counterexample to Claim C7: the claim says an entry that cannot be
enumerated is skipped "and enumeration continues with the remaining
entries", never terminating processing of the rest.  In the code the
`while let Ok(Some(entry))` pattern fails on an `Err`, ending the loop:
on the listing `[Err, atxt]` (where `atxt` is a matching file) nothing is
processed and no capability is invoked, while skip-and-continue (the
listing `[atxt]` alone) processes `atxt` — the two outcomes differ. -/
theorem claimC7_skip_cex :
    maskLoop env1 m6 [OsStr.valid "d"] [OsStr.valid "out"] opOk
        [EntryRes.fail, EntryRes.name (OsStr.valid "atxt")] = (.ok (), [])
    ∧ maskLoop env1 m6 [OsStr.valid "d"] [OsStr.valid "out"] opOk
        [EntryRes.name (OsStr.valid "atxt")]
      = (.ok (), [([OsStr.valid "d", OsStr.valid "atxt"], [OsStr.valid "out"])])
    ∧ ([] : Log) ≠ [([OsStr.valid "d", OsStr.valid "atxt"], [OsStr.valid "out"])] :=
  ⟨rfl, rfl, by simp⟩

/-- Claim C7, amended: an entry that cannot be enumerated mid-listing is
swallowed silently but *terminates* the walk: the loop exits at that
entry, the remaining entries are not processed, no further capability
invocation happens, and that prefix of the walk reports success. -/
theorem claimC7_amended (env : Env) (re : String → Bool) (src target : Path)
    (op : Op) (rest : List EntryRes) :
    maskLoop env re src target op (EntryRes.fail :: rest) = (.ok (), []) :=
  rfl

/-- Claim C9: a source that exists as neither file nor directory and
whose last segment either cannot be extracted or decodes to text with no
`*` makes all three public operations fail with `InvalidSource(source)`,
with no capability invocation (the log is empty) and no directory listing
(the environment — in particular its `read_dir` — is arbitrary and the
result does not depend on it). -/
theorem claimC9_invalid_source (env : Env) (s t : Path)
    (hf : env.is_file s = false) (hd : env.is_dir s = false)
    (h : fileNameOf s = none ∨
      ∃ n str, fileNameOf s = some n ∧ n.decode = some str ∧ containsStar str = false) :
    cp env s t = some (.error (.InvalidSource s), [])
    ∧ mv env s t = some (.error (.InvalidSource s), [])
    ∧ rm env s = some (.error (.InvalidSource s), []) := by
  have hm : ∀ op tgt, do_on_mask env s tgt op = some (.error (.InvalidSource s), []) := by
    intro op tgt
    rcases h with hn | ⟨n, str, hn, hdec, hstar⟩
    · simp [do_on_mask, hn]
    · simp [do_on_mask, hn, hdec, hstar]
  refine ⟨?_, ?_, ?_⟩ <;> simp [cp, mv, rm, hf, hd, hm]

/-- Witness for C9 at a concrete input: the path `x` exists as neither
file nor directory and its segment has no `*`. -/
theorem claimC9_invalid_source_witness :
    cp env1 [OsStr.valid "x"] [] = some (.error (.InvalidSource [OsStr.valid "x"]), [])
    ∧ mv env1 [OsStr.valid "x"] [] = some (.error (.InvalidSource [OsStr.valid "x"]), [])
    ∧ rm env1 [OsStr.valid "x"] = some (.error (.InvalidSource [OsStr.valid "x"]), []) :=
  claimC9_invalid_source env1 [OsStr.valid "x"] [] rfl rfl
    (Or.inr ⟨OsStr.valid "x", "x", rfl, rfl, rfl⟩)

/-- Claim C10: `rm`'s capability ignores its target argument, `rm`
supplies the throwaway `temp_dir` as target, a failed remove surfaces
`InvalidSource(source)` — so a failing removal of a plain file makes the
whole `rm` call fail with `InvalidSource`, never `OperationFailed` —
while the `cp` and `mv` capabilities surface
`OperationFailed(source, effective target)` on failure. -/
theorem claimC10_delete_target (env : Env) (s t t2 : Path) (n : OsStr) :
    rmClosure env s t = rmClosure env s t2
    ∧ (env.remove_raw s = false → rmClosure env s t = .error (.InvalidSource s))
    ∧ (env.copy_raw s t = false → cpClosure env s t = .error (.OperationFailed s t))
    ∧ (env.rename_raw s t = false → mvClosure env s t = .error (.OperationFailed s t))
    ∧ (env.is_file s = true → env.is_dir s = false →
        rm env s = some (do_on_file env s env.temp_dir (rmClosure env)))
    ∧ (env.is_file s = true → env.is_dir s = false → env.remove_raw s = false →
        fileNameOf s = some n →
        ∃ l, rm env s = some (.error (.InvalidSource s), l)) := by
  refine ⟨rfl, ?_, ?_, ?_, ?_, ?_⟩
  · intro hr; simp [rmClosure, hr]
  · intro hr; simp [cpClosure, hr]
  · intro hr; simp [mvClosure, hr]
  · intro hf hd; simp [rm, hf, hd]
  · intro hf hd hr hn
    by_cases htd : env.is_dir env.temp_dir
    · exact ⟨[(s, env.temp_dir ++ [n])],
        by simp [rm, hf, hd, do_on_file, htd, hn, rmClosure, hr]⟩
    · exact ⟨[(s, env.temp_dir)],
        by simp [rm, hf, hd, do_on_file, htd, rmClosure, hr]⟩

/-- Witness for C10 at a concrete input: removing the file `f` while the
remove primitive fails yields `InvalidSource f`. -/
theorem claimC10_delete_target_witness :
    ∃ l, rm envF [OsStr.valid "f"] = some (.error (.InvalidSource [OsStr.valid "f"]), l) :=
  (claimC10_delete_target envF [OsStr.valid "f"] [] [] (OsStr.valid "f")).2.2.2.2.2
    rfl rfl rfl rfl

/-- A directory entry's path ends in its own name. -/
theorem fileNameOf_append (src : Path) (n : OsStr) : fileNameOf (src ++ [n]) = some n := by
  simp [fileNameOf, List.getLast?_append_cons]

/-- Every capability invocation logged by the file strategy has the
strategy's source as its source. -/
theorem do_on_file_src (env : Env) (s t : Path) (op : Op) (pr : Path × Path)
    (h : pr ∈ (do_on_file env s t op).2) : pr.1 = s := by
  cases hd : env.is_dir t
  · simp only [do_on_file, hd, Bool.false_eq_true, if_false, List.mem_singleton] at h
    subst h; rfl
  · cases hn : fileNameOf s
    · simp [do_on_file, hd, hn] at h
    · simp only [do_on_file, hd, if_true, hn, List.mem_singleton] at h
      subst h; rfl

/-- Loop invariant of the mask walk: every logged capability invocation
stems from a file entry of the listing, at the listed directory joined
with that entry's name, and was produced by the file strategy applied to
that path with the walk's (original) target. -/
theorem maskLoop_mem (env : Env) (re : String → Bool) (src target : Path) (op : Op)
    (es : List EntryRes) (pr : Path × Path)
    (h : pr ∈ (maskLoop env re src target op es).2) :
    env.is_file pr.1 = true ∧
      (∃ n, EntryRes.name n ∈ es ∧ pr.1 = src ++ [n]) ∧
      pr ∈ (do_on_file env pr.1 target op).2 := by
  induction es with
  | nil => simp [maskLoop] at h
  | cons x rest ih =>
    cases x with
    | fail => simp [maskLoop] at h
    | name en =>
      rw [maskLoop] at h
      simp only [fileNameOf_append] at h
      cases hf : env.is_file (src ++ [en])
      · rw [hf] at h
        simp only [Bool.false_eq_true, if_false] at h
        obtain ⟨h1, ⟨n, hn, hp⟩, h3⟩ := ih h
        exact ⟨h1, ⟨n, List.mem_cons_of_mem _ hn, hp⟩, h3⟩
      · rw [hf] at h
        simp only [if_true] at h
        cases hd : en.decode with
        | none => rw [hd] at h; simp at h
        | some s =>
          rw [hd] at h
          dsimp only at h
          cases hre : re s with
          | false =>
            rw [hre] at h
            simp only [Bool.false_eq_true, if_false] at h
            obtain ⟨h1, ⟨n, hn, hp⟩, h3⟩ := ih h
            exact ⟨h1, ⟨n, List.mem_cons_of_mem _ hn, hp⟩, h3⟩
          | true =>
            rw [hre] at h
            simp only [if_true] at h
            rcases hop : do_on_file env (src ++ [en]) target op with ⟨r, calls⟩
            rw [hop] at h
            cases r with
            | ok u =>
              simp only [List.mem_append] at h
              rcases h with hc | hrest
              · have hmem : pr ∈ (do_on_file env (src ++ [en]) target op).2 := by
                  rw [hop]; exact hc
                have hsrc : pr.1 = src ++ [en] := do_on_file_src env _ target op pr hmem
                refine ⟨by rw [hsrc]; exact hf, ⟨en, List.mem_cons_self _ _, hsrc⟩, ?_⟩
                rw [hsrc, hop]; exact hc
              · obtain ⟨h1, ⟨n, hn, hp⟩, h3⟩ := ih hrest
                exact ⟨h1, ⟨n, List.mem_cons_of_mem _ hn, hp⟩, h3⟩
            | error e =>
              have hmem : pr ∈ (do_on_file env (src ++ [en]) target op).2 := by
                rw [hop]; exact h
              have hsrc : pr.1 = src ++ [en] := do_on_file_src env _ target op pr hmem
              refine ⟨by rw [hsrc]; exact hf, ⟨en, List.mem_cons_self _ _, hsrc⟩, ?_⟩
              rw [hsrc, hop]; exact h

/-- Claim C5: during a mask expansion the capability is only ever invoked
on listing entries that are files — a directory (or any non-file entry)
is never acted on and, every acted-on path being a direct child of the
listed parent, never recursed into — and every invocation was produced by
the file strategy applied with the original, unexpanded target. -/
theorem claimC5_files_only (env : Env) (source target : Path) (op : Op)
    (res : Except WildcardingError Unit × Log) (pr : Path × Path)
    (hres : do_on_mask env source target op = some res) (hpr : pr ∈ res.2) :
    env.is_file pr.1 = true ∧
      (∃ par entries n, pathParent source = some par ∧
        env.read_dir par = some entries ∧
        EntryRes.name n ∈ entries ∧ pr.1 = par ++ [n]) ∧
      pr ∈ (do_on_file env pr.1 target op).2 := by
  unfold do_on_mask at hres
  cases hn : fileNameOf source with
  | none => rw [hn] at hres; dsimp only at hres; cases hres; simp at hpr
  | some name =>
    rw [hn] at hres; dsimp only at hres
    cases hd : name.decode with
    | none => rw [hd] at hres; dsimp only at hres; cases hres; simp at hpr
    | some as_str =>
      rw [hd] at hres; dsimp only at hres
      cases hstar : containsStar as_str with
      | false =>
        rw [hstar] at hres
        simp only [Bool.false_eq_true, if_false] at hres
        cases hres; simp at hpr
      | true =>
        rw [hstar] at hres
        simp only [if_true] at hres
        cases hpar : pathParent source with
        | none => rw [hpar] at hres; dsimp only at hres; cases hres; simp at hpr
        | some par =>
          rw [hpar] at hres; dsimp only at hres
          cases hre : env.regex_new (replaceStar as_str) with
          | none => rw [hre] at hres; dsimp only at hres; cases hres
          | some re =>
            rw [hre] at hres; dsimp only at hres
            cases hread : env.read_dir par with
            | none => rw [hread] at hres; dsimp only at hres; cases hres; simp at hpr
            | some entries =>
              rw [hread] at hres; dsimp only at hres
              cases hres
              obtain ⟨h1, ⟨n, hmem, hp⟩, h3⟩ :=
                maskLoop_mem env re par target op entries pr hpr
              exact ⟨h1, ⟨par, entries, n, rfl, hread, hmem, hp⟩, h3⟩

/-- Witness for C5 at a concrete input: expanding `d/*.txt` in `env1`
invokes the capability on the file `d/atxt` (via the file strategy, with
the original target `out`). -/
theorem claimC5_files_only_witness :
    env1.is_file [OsStr.valid "d", OsStr.valid "atxt"] = true ∧
      (∃ par entries n, pathParent [OsStr.valid "d", OsStr.valid "*.txt"] = some par ∧
        env1.read_dir par = some entries ∧
        EntryRes.name n ∈ entries ∧
        [OsStr.valid "d", OsStr.valid "atxt"] = par ++ [n]) ∧
      ([OsStr.valid "d", OsStr.valid "atxt"], [OsStr.valid "out"]) ∈
        (do_on_file env1 [OsStr.valid "d", OsStr.valid "atxt"] [OsStr.valid "out"] opOk).2 :=
  claimC5_files_only env1 [OsStr.valid "d", OsStr.valid "*.txt"] [OsStr.valid "out"] opOk
    (.ok (), [([OsStr.valid "d", OsStr.valid "atxt"], [OsStr.valid "out"])])
    ([OsStr.valid "d", OsStr.valid "atxt"], [OsStr.valid "out"])
    rfl (List.mem_singleton.mpr rfl)

/-- Counterexample to Claim C6: the claim says a mask expansion in which
zero entries match returns success.  Expanding `d/*` in `env6`, whose
directory holds a single file with an undecodable name, matches zero
entries (`m6` is the compiled matcher of the segment `*`; the sole entry
fails `entryMatched` because its name does not decode), yet the call
returns `InvalidPath`, not success. -/
theorem claimC6_first_error_cex :
    regexModelNew (replaceStar "*") = some m6
    ∧ List.all [EntryRes.name (OsStr.invalid 0)]
        (fun x => !entryMatched env6 m6 [OsStr.valid "d"] x) = true
    ∧ do_on_mask env6 [OsStr.valid "d", OsStr.valid "*"] [OsStr.valid "out"] opOk
        = some (.error (.InvalidPath [OsStr.valid "d", OsStr.invalid 0]), []) :=
  ⟨rfl, rfl, rfl⟩

/-- Claim C6, amended: the first error of the walk is the result of the
whole call and entries after it contribute no capability invocation; and
the walk returns success when every enumerated file entry's name decodes
as text and no matched entry's file-strategy call fails — in particular
zero matches (among decodable file names) is success.  (The amendment is
forced by an enumerated file whose name does not decode: it matches
nothing yet aborts the walk with `InvalidPath`.) -/
theorem claimC6_first_error_amended (env : Env) (re : String → Bool)
    (src target : Path) (op : Op) :
    (∀ es1 es2 e l, maskLoop env re src target op es1 = (.error e, l) →
      maskLoop env re src target op (es1 ++ es2) = (.error e, l))
    ∧ (∀ es, (∀ x ∈ es, entryDecodeOk env src x = true ∧
        (entryMatched env re src x = true →
          (do_on_file env (entryPathOf src x) target op).1 = .ok ())) →
      (maskLoop env re src target op es).1 = .ok ()) := by
  constructor
  · intro es1
    induction es1 with
    | nil => intro es2 e l habs; rw [maskLoop] at habs; cases habs
    | cons x rest ih =>
      intro es2 e l h
      cases x with
      | fail => rw [maskLoop] at h; cases h
      | name en =>
        rw [maskLoop] at h
        rw [List.cons_append, maskLoop]
        simp only [fileNameOf_append] at h ⊢
        cases hf : env.is_file (src ++ [en])
        · rw [hf] at h
          simp only [Bool.false_eq_true, if_false] at h ⊢
          exact ih es2 e l h
        · rw [hf] at h
          simp only [if_true] at h ⊢
          cases hd : en.decode with
          | none =>
            rw [hd] at h
            dsimp only at h ⊢
            exact h
          | some s =>
            rw [hd] at h
            dsimp only at h ⊢
            cases hre : re s with
            | false =>
              rw [hre] at h
              simp only [Bool.false_eq_true, if_false] at h ⊢
              exact ih es2 e l h
            | true =>
              rw [hre] at h
              simp only [if_true] at h ⊢
              rcases hop : do_on_file env (src ++ [en]) target op with ⟨r, calls⟩
              rw [hop] at h
              cases r with
              | ok u =>
                dsimp only at h ⊢
                rcases hrest : maskLoop env re src target op rest with ⟨r1, l1⟩
                rw [hrest] at h
                dsimp only at h
                rw [Prod.mk.injEq] at h
                obtain ⟨h1, h2⟩ := h
                subst h1
                have hx := ih es2 e l1 hrest
                rw [hx]
                dsimp only
                rw [h2]
              | error e2 =>
                dsimp only at h ⊢
                exact h
  · intro es hes
    induction es with
    | nil => rw [maskLoop]
    | cons x rest ih =>
      have ihrest : (maskLoop env re src target op rest).1 = .ok () :=
        ih fun x hx => hes x (List.mem_cons_of_mem _ hx)
      cases x with
      | fail => rw [maskLoop]
      | name en =>
        obtain ⟨hdec, hmat⟩ := hes (EntryRes.name en) (List.mem_cons_self _ _)
        rw [maskLoop]
        simp only [fileNameOf_append]
        cases hf : env.is_file (src ++ [en])
        · simp only [Bool.false_eq_true, if_false]
          exact ihrest
        · simp only [if_true]
          cases hd : en.decode with
          | none =>
            exfalso
            rw [entryDecodeOk, hf, hd] at hdec
            simp at hdec
          | some s =>
            dsimp only
            cases hre : re s with
            | false =>
              simp only [Bool.false_eq_true, if_false]
              exact ihrest
            | true =>
              simp only [if_true]
              have hm : entryMatched env re src (EntryRes.name en) = true := by
                simp [entryMatched, hf, hd, hre]
              have hok := hmat hm
              rw [entryPathOf] at hok
              rcases hop : do_on_file env (src ++ [en]) target op with ⟨r, calls⟩
              have hr : r = Except.ok () := by
                first
                | exact hok
                | (rw [hop] at hok; exact hok)
              subst hr
              dsimp only
              exact ihrest

/-- Witness for C6 (amended) at concrete inputs: in `env6` the walk's
`InvalidPath` error on the undecodable entry survives appending a further
entry to the listing (no invocation is added), and in `env1` expanding
the listing `[atxt]` — where the single matched file's operation
succeeds — returns success. -/
theorem claimC6_first_error_amended_witness :
    maskLoop env6 m6 [OsStr.valid "d"] [OsStr.valid "out"] opOk
        ([EntryRes.name (OsStr.invalid 0)] ++ [EntryRes.name (OsStr.invalid 0)])
      = (.error (.InvalidPath [OsStr.valid "d", OsStr.invalid 0]), [])
    ∧ (maskLoop env1 m6 [OsStr.valid "d"] [OsStr.valid "out"] opOk
        [EntryRes.name (OsStr.valid "atxt")]).1 = .ok () :=
  ⟨(claimC6_first_error_amended env6 m6 [OsStr.valid "d"] [OsStr.valid "out"] opOk).1
      [EntryRes.name (OsStr.invalid 0)] [EntryRes.name (OsStr.invalid 0)]
      (.InvalidPath [OsStr.valid "d", OsStr.invalid 0]) [] rfl,
    (claimC6_first_error_amended env1 m6 [OsStr.valid "d"] [OsStr.valid "out"] opOk).2
      [EntryRes.name (OsStr.valid "atxt")]
      (by
        intro x hx
        rw [List.mem_singleton] at hx
        subst hx
        exact ⟨rfl, fun _ => rfl⟩)⟩

end Wildcards
